import Mathlib

/-!
Shallow embedding of the portfolio backend (src/main.py and src/schemas.py)
and proofs about its endpoint contracts.

Documents are modelled as association lists from string keys to a small
value type; dictionary update / removal / lookup follow Python dict
semantics (keys are unique in every document the system builds).
The document-store adapter (database.py, pymongo) is not part of src/, so
it is modelled from the spec, section 4.2.
-/

namespace Portfolio

/-- JSON-safe stored values: null, strings, lists of strings (tags),
string-to-string maps (socials) and the store-native ObjectId. -/
inductive Val where
  | vNull : Val
  | vStr : String → Val
  | vList : List String → Val
  | vDict : List (String × String) → Val
  | vOid : Nat → Val
deriving DecidableEq, Repr

/-- A document: an association list with unique keys, as a Python dict. -/
abbrev Doc := List (String × Val)

/-- Lookup of a key in a document (first occurrence). -/
def getField : Doc → String → Option Val
  | [], _ => none
  | (k, v) :: rest, key => if k = key then some v else getField rest key

/-- Removal of a key from a document (dict.pop). -/
def removeField : Doc → String → Doc
  | [], _ => []
  | (k, v) :: rest, key =>
    if k = key then removeField rest key else (k, v) :: removeField rest key

/-- Assignment of a key in a document (dict assignment: replace in place,
append at the end when the key is new). -/
def setField : Doc → String → Val → Doc
  | [], key, val => [(key, val)]
  | (k, v) :: rest, key, val =>
    if k = key then (k, val) :: rest else (k, v) :: setField rest key val

/-- Apply a field set left to right (the store applying a $set document). -/
def setFields (d : Doc) (fs : Doc) : Doc :=
  fs.foldl (fun a kv => setField a kv.1 kv.2) d

/-- The keys of a document. -/
def keys (d : Doc) : List String := d.map Prod.fst

/-- Hexadecimal character test, as used by ObjectId validation. -/
def isHexChar (c : Char) : Bool :=
  (decide (Char.ofNat 48 ≤ c) && decide (c ≤ Char.ofNat 57)) ||
  (decide (Char.ofNat 97 ≤ c) && decide (c ≤ Char.ofNat 102)) ||
  (decide (Char.ofNat 65 ≤ c) && decide (c ≤ Char.ofNat 70))

/-- ObjectId.is_valid on a string: exactly 24 hexadecimal characters
(spec 4.1: wrong length or non-hex characters are invalid). -/
def isValidObjectId (s : String) : Bool :=
  s.length == 24 && s.toList.all isHexChar

/-- Numeric value of a hexadecimal character. -/
def hexVal (c : Char) : Nat :=
  if decide (Char.ofNat 48 ≤ c) && decide (c ≤ Char.ofNat 57) then c.toNat - 48
  else if decide (Char.ofNat 97 ≤ c) && decide (c ≤ Char.ofNat 102) then c.toNat - 87
  else if decide (Char.ofNat 65 ≤ c) && decide (c ≤ Char.ofNat 70) then c.toNat - 55
  else 0

/-- ObjectId(s): decode a 24-character hex string to the native identifier,
modelled as a natural number. -/
def decodeOid (s : String) : Nat :=
  s.toList.foldl (fun a c => a * 16 + hexVal c) 0

/-- Lower-case hexadecimal digit for a value below 16. -/
def hexChar (n : Nat) : Char :=
  if n < 10 then Char.ofNat (48 + n) else Char.ofNat (87 + n % 16)

/-- str(ObjectId): the 24-character lower-case hex encoding of a native
identifier. -/
def oidStr (n : Nat) : String :=
  String.mk ((List.range 24).map (fun i => hexChar (n / 16 ^ (23 - i) % 16)))

/-- A document as persisted by the store: its native identifier together
with its data fields (which never contain the native key themselves). -/
structure StoredDoc where
  oid : Nat
  fields : Doc
deriving DecidableEq, Repr

/-- A stored document as the store returns it from find: the native
identifier field first, then the data fields. -/
def withId (d : StoredDoc) : Doc := ("_id", Val.vOid d.oid) :: d.fields

/-- Modelled from the spec: the document-store state (database.py and the
pymongo handle are not under src/; spec section 4.2 gives the adapter
contract). Two collections are used, "settings" and "project"; documents
keep insertion order and the store assigns fresh identifiers from a
counter. -/
structure Store where
  settings : List StoredDoc
  project : List StoredDoc
  nextId : Nat
deriving DecidableEq, Repr

/-- Modelled from the spec: find_one by identifier (spec 4.2, equality
filter on the unique native identifier). -/
def findOne (l : List StoredDoc) (oid : Nat) : Option StoredDoc :=
  l.find? (fun d => d.oid == oid)

/-- Modelled from the spec: delete_one by identifier — removes the first
(and, identifiers being unique, only) match and reports whether a deletion
occurred (spec 4.2). -/
def deleteOne : List StoredDoc → Nat → Bool × List StoredDoc
  | [], _ => (false, [])
  | d :: rest, oid =>
    if d.oid == oid then (true, rest)
    else
      let r := deleteOne rest oid
      (r.1, d :: r.2)

/-- Modelled from the spec: update_one with a $set document — replaces the
listed fields on the document with that identifier, leaving other fields
untouched; a no-op when no document has that identifier (spec 4.2). -/
def updateOneList (l : List StoredDoc) (oid : Nat) (fs : Doc) : List StoredDoc :=
  l.map (fun d => if d.oid == oid then { d with fields := setFields d.fields fs } else d)

/-- to_serializable from src/main.py: the empty document passes through;
otherwise, when the native identifier field holds an ObjectId, it is
removed and a string field id holding the encoding is assigned. -/
def to_serializable (doc : Doc) : Doc :=
  if doc = [] then doc
  else
    match getField doc "_id" with
    | some (Val.vOid n) => setField (removeField doc "_id") "id" (Val.vStr (oidStr n))
    | _ => doc

/-- The Settings payload (src/schemas.py): four required strings, three
optional strings and an optional socials map (none encodes an explicit
null). -/
structure SettingsIn where
  name : String
  role : String
  headline : String
  about : String
  location : Option String
  avatar_url : Option String
  email : Option String
  socials : Option (List (String × String))
deriving DecidableEq, Repr

/-- The Project payload (src/schemas.py): two required strings, a tag list
defaulting to empty, three optional URL-shaped strings. -/
structure ProjectIn where
  title : String
  description : String
  tags : List String
  image_url : Option String
  live_url : Option String
  repo_url : Option String
deriving DecidableEq, Repr

/-- The ProjectUpdate payload (src/main.py): every field optional, none
meaning absent or null. -/
structure ProjectUpdate where
  title : Option String
  description : Option String
  tags : Option (List String)
  image_url : Option String
  live_url : Option String
  repo_url : Option String
deriving DecidableEq, Repr

/-- An optional string as stored: null when absent. -/
def optVal : Option String → Val
  | some s => Val.vStr s
  | none => Val.vNull

/-- model_dump of a Settings payload: every declared field, in declaration
order, absent optionals as null. -/
def settingsToDoc (p : SettingsIn) : Doc :=
  [("name", Val.vStr p.name), ("role", Val.vStr p.role),
   ("headline", Val.vStr p.headline), ("about", Val.vStr p.about),
   ("location", optVal p.location), ("avatar_url", optVal p.avatar_url),
   ("email", optVal p.email),
   ("socials", match p.socials with | some m => Val.vDict m | none => Val.vNull)]

/-- model_dump of a Project payload. -/
def projectToDoc (p : ProjectIn) : Doc :=
  [("title", Val.vStr p.title), ("description", Val.vStr p.description),
   ("tags", Val.vList p.tags), ("image_url", optVal p.image_url),
   ("live_url", optVal p.live_url), ("repo_url", optVal p.repo_url)]

/-- One entry of the comprehension over model_dump: kept when non-null. -/
def optF (k : String) : Option Val → Doc
  | some v => [(k, v)]
  | none => []

/-- The dict comprehension in update_project: the request fields whose
value is not None, in field-declaration order. -/
def nonNullFields (p : ProjectUpdate) : Doc :=
  optF "title" (p.title.map Val.vStr) ++
  (optF "description" (p.description.map Val.vStr) ++
  (optF "tags" (p.tags.map Val.vList) ++
  (optF "image_url" (p.image_url.map Val.vStr) ++
  (optF "live_url" (p.live_url.map Val.vStr) ++
  optF "repo_url" (p.repo_url.map Val.vStr)))))

/-- The field set update_project passes to the store: the non-null request
fields plus updated_at carrying the target document's current value, null
when the document has no such field. -/
def appliedFields (p : ProjectUpdate) (old : Doc) : Doc :=
  nonNullFields p ++ [("updated_at", (getField old "updated_at").getD Val.vNull)]

/-- The JSON response of an endpoint, at the granularity the claims need:
a single document, a list of documents, the updated / deleted flags, the
diagnostic body, or an HTTPException with a status code and detail. -/
inductive Resp where
  | doc : Doc → Resp
  | docs : List Doc → Resp
  | updatedFlag : Bool → Resp
  | deletedFlag : Bool → Resp
  | err : Nat → String → Resp
deriving DecidableEq, Repr

/-- The detail string of the internal fault raised when update_project
reads an absent document and calls .get on the missing value. -/
def absentDocDetail : String := "AttributeError: NoneType has no attribute get"

/-- GET /api/public/settings: first Settings document serialized, the
empty object when none exist. -/
def get_public_settings (st : Store) : Resp :=
  match st.settings with
  | [] => Resp.doc []
  | d :: _ => Resp.doc (to_serializable (withId d))

/-- GET /api/public/projects: all Project documents serialized. -/
def list_public_projects (st : Store) : Resp :=
  Resp.docs (st.project.map (fun d => to_serializable (withId d)))

/-- GET /api/admin/projects: same listing as the public endpoint. -/
def list_projects_admin (st : Store) : Resp :=
  Resp.docs (st.project.map (fun d => to_serializable (withId d)))

/-- Modelled from the spec: insert into the settings collection (spec 4.2:
persists a new document and returns its assigned identifier). -/
def insertSettings (st : Store) (fs : Doc) : Nat × Store :=
  (st.nextId,
   { st with settings := st.settings ++ [⟨st.nextId, fs⟩], nextId := st.nextId + 1 })

/-- Modelled from the spec: insert into the project collection. -/
def insertProject (st : Store) (fs : Doc) : Nat × Store :=
  (st.nextId,
   { st with project := st.project ++ [⟨st.nextId, fs⟩], nextId := st.nextId + 1 })

/-- POST /api/admin/settings with an already validated payload: delete all
Settings documents, insert the new one, read it back, serialize it. -/
def upsert_settings (p : SettingsIn) (st : Store) : Resp × Store :=
  let st1 : Store := { st with settings := [] }
  let r := insertSettings st1 (settingsToDoc p)
  match findOne r.2.settings r.1 with
  | some d => (Resp.doc (to_serializable (withId d)), r.2)
  | none => (Resp.doc [], r.2)

/-- POST /api/admin/projects with an already validated payload: insert,
read back, serialize. -/
def create_project (p : ProjectIn) (st : Store) : Resp × Store :=
  let r := insertProject st (projectToDoc p)
  match findOne r.2.project r.1 with
  | some d => (Resp.doc (to_serializable (withId d)), r.2)
  | none => (Resp.doc [], r.2)

/-- PUT /api/admin/projects/(project_id) from src/main.py: reject an
invalid identifier with 400; return updated=false when no non-null field
was supplied; otherwise read the target document (the attribute access on
an absent read result surfaces as a generic 500), write the non-null
fields plus the preserved updated_at, and return the refreshed serialized
document. -/
def update_project (pid : String) (p : ProjectUpdate) (st : Store) : Resp × Store :=
  if isValidObjectId pid then
    if nonNullFields p = [] then (Resp.updatedFlag false, st)
    else
      match findOne st.project (decodeOid pid) with
      | none => (Resp.err 500 absentDocDetail, st)
      | some d0 =>
        let st1 : Store :=
          { st with project := updateOneList st.project (decodeOid pid) (appliedFields p d0.fields) }
        match findOne st1.project (decodeOid pid) with
        | some d1 => (Resp.doc (to_serializable (withId d1)), st1)
        | none => (Resp.doc (to_serializable []), st1)
  else (Resp.err 400 "Invalid project id", st)

/-- DELETE /api/admin/projects/(project_id) from src/main.py: reject an
invalid identifier with 400; otherwise delete and report whether exactly
one document was removed. -/
def delete_project (pid : String) (st : Store) : Resp × Store :=
  if isValidObjectId pid then
    let r := deleteOne st.project (decodeOid pid)
    (Resp.deletedFlag r.1, { st with project := r.2 })
  else (Resp.err 400 "Invalid project id", st)

/-- The two environment configuration values the diagnostic endpoint
checks: DATABASE_URL and DATABASE_NAME, each possibly unset. -/
structure Env where
  database_url : Option String
  database_name : Option String
deriving DecidableEq, Repr

/-- The process-wide database handle as the diagnostic endpoint observes
it: its name, and the outcome of listing collection names (which may fail
with an exception message). -/
structure DbHandle where
  name : String
  collections : Except String (List String)
deriving Repr

/-- The body of the GET /test response from src/main.py. -/
structure TestResponse where
  backend : String
  database : String
  database_url : Option String
  database_name : Option String
  connection_status : String
  collections : List String
deriving Repr

/-- GET /test from src/main.py: starts from a pessimistic response, fills
in connectivity information from the handle (every failure is caught and
folded into the database field), then unconditionally overwrites the two
configuration indicators with presence marks computed from the
environment. Every exception path of the source is caught, so the
embedding is a total function into a 200 response body. -/
def test_database (db : Option DbHandle) (env : Env) : TestResponse :=
  let resp : TestResponse :=
    { backend := "✅ Running", database := "❌ Not Available",
      database_url := none, database_name := none,
      connection_status := "Not Connected", collections := [] }
  let resp :=
    match db with
    | some d =>
      let resp :=
        { resp with database := "✅ Available", database_url := some "✅ Configured",
                    database_name := some d.name, connection_status := "Connected" }
      match d.collections with
      | Except.ok cols =>
        { resp with collections := cols.take 10, database := "✅ Connected & Working" }
      | Except.error e =>
        { resp with database := "⚠️  Connected but Error: " ++ e.take 50 }
    | none => { resp with database := "⚠️  Available but not initialized" }
  { resp with
    database_url := some (if env.database_url.isSome then "✅ Set" else "❌ Not Set"),
    database_name := some (if env.database_name.isSome then "✅ Set" else "❌ Not Set") }

/-- A JSON value as a request-body field can supply it, at the granularity
the two schemas distinguish: null, a string, an array of strings, a map of
strings to strings, or anything else (numbers, booleans, mixed arrays,
nested objects — all rejected wherever they appear in these schemas). -/
inductive JVal where
  | jNull : JVal
  | jStr : String → JVal
  | jStrList : List String → JVal
  | jStrMap : List (String × String) → JVal
  | jOther : JVal
deriving DecidableEq, Repr

/-- A raw request body: a JSON object. -/
abbrev Body := List (String × JVal)

/-- Lookup of a key in a request body. -/
def jLookup (body : Body) (k : String) : Option JVal :=
  (body.find? (fun kv => kv.1 == k)).map Prod.snd

/-- Modelled from the spec: validation of a required string field — the
field must be present and be a string (spec 9, structural validation of
required fields). -/
def reqStr (body : Body) (k : String) : Option String :=
  match jLookup body k with
  | some (JVal.jStr s) => some s
  | _ => none

/-- Modelled from the spec: validation of an optional string field —
absent or null yields none, a string yields it, any other shape is
invalid. -/
def optStr (body : Body) (k : String) : Option (Option String) :=
  match jLookup body k with
  | none => some none
  | some JVal.jNull => some none
  | some (JVal.jStr s) => some (some s)
  | _ => none

/-- URL-shaped string check (spec 3: optional URL-shaped strings). -/
def isUrlShaped (s : String) : Bool :=
  s.startsWith "http://" || s.startsWith "https://"

/-- Modelled from the spec: validation of an optional URL field — like an
optional string but the string must be URL-shaped. -/
def optUrl (body : Body) (k : String) : Option (Option String) :=
  match jLookup body k with
  | none => some none
  | some JVal.jNull => some none
  | some (JVal.jStr s) => if isUrlShaped s then some (some s) else none
  | _ => none

/-- Modelled from the spec: validation of the socials map — absent
defaults to the empty map, null is an explicit null, a string map is
taken as is, any other shape is invalid. -/
def optMap (body : Body) (k : String) : Option (Option (List (String × String))) :=
  match jLookup body k with
  | none => some (some [])
  | some JVal.jNull => some none
  | some (JVal.jStrMap m) => some (some m)
  | _ => none

/-- Modelled from the spec: validation of the tags list — absent defaults
to the empty list, an array of strings is taken as is, any other shape
(null included, the field not being optional) is invalid. -/
def optTags (body : Body) (k : String) : Option (List String) :=
  match jLookup body k with
  | none => some []
  | some (JVal.jStrList xs) => some xs
  | _ => none

/-- Modelled from the spec: the Settings schema validation (spec 3 and
src/schemas.py: name, role, headline, about required strings; location,
avatar_url, email optional; socials an optional map). -/
def validateSettings (body : Body) : Option SettingsIn :=
  match reqStr body "name", reqStr body "role",
        reqStr body "headline", reqStr body "about" with
  | some n, some r, some h, some a =>
    match optStr body "location", optUrl body "avatar_url",
          optStr body "email", optMap body "socials" with
    | some loc, some av, some em, some so => some ⟨n, r, h, a, loc, av, em, so⟩
    | _, _, _, _ => none
  | _, _, _, _ => none

/-- Modelled from the spec: the Project schema validation (spec 3 and
src/schemas.py: title, description required strings; tags defaulting to
empty; three optional URL-shaped strings). -/
def validateProject (body : Body) : Option ProjectIn :=
  match reqStr body "title", reqStr body "description", optTags body "tags" with
  | some t, some d, some tg =>
    match optUrl body "image_url", optUrl body "live_url", optUrl body "repo_url" with
    | some iu, some lu, some ru => some ⟨t, d, tg, iu, lu, ru⟩
    | _, _, _ => none
  | _, _, _ => none

/-- Modelled from the spec: the request-dispatch layer of POST
/api/admin/settings (framework code, not under src/) — a body failing
schema validation is treated as a generic failure and answered with
status 500 (spec 7), a valid one reaches the handler. -/
def post_admin_settings (body : Body) (st : Store) : Resp × Store :=
  match validateSettings body with
  | some p => upsert_settings p st
  | none => (Resp.err 500 "validation error", st)

/-- Modelled from the spec: the request-dispatch layer of POST
/api/admin/projects, identically mapping validation failure to 500. -/
def post_admin_projects (body : Body) (st : Store) : Resp × Store :=
  match validateProject body with
  | some p => create_project p st
  | none => (Resp.err 500 "validation error", st)

/-- A response document is the clean serialization of the document with
native identifier n: the native identifier field is absent and the
string id field holds exactly the encoded identifier. -/
def serializedAs (n : Nat) (d : Doc) : Prop :=
  getField d "_id" = none ∧ getField d "id" = some (Val.vStr (oidStr n))

/-- A collection is well formed when no document keeps the native key
among its data fields (every document the handlers build satisfies
this). -/
def noNativeKey (l : List StoredDoc) : Prop :=
  ∀ d ∈ l, getField d.fields "_id" = none

/-- Uniqueness of native identifiers in a collection (the store-level
guarantee of spec 6). -/
def oidsUnique (l : List StoredDoc) : Prop :=
  (l.map (fun d => d.oid)).Nodup

/-- The keys update_project may write: the six request fields plus the
preserved updated_at. -/
def updateKeys : List String :=
  ["title", "description", "tags", "image_url", "live_url", "repo_url", "updated_at"]

/-- The partial-update merge of one field: the incoming value when
present, the stored value otherwise. -/
def mergeVal (new old : Option Val) : Option Val :=
  match new with
  | some v => some v
  | none => old

/-- An explicit not-found response: a 404 with any detail. -/
def isNotFoundResp (r : Resp) : Prop := ∃ m, r = Resp.err 404 m

/-- A syntactically valid identifier whose document is absent from the
sample stores below. -/
def cnPid : String := "0123456789abcdef01234567"

/-- A partial-update body supplying one non-null field. -/
def cnUpd : ProjectUpdate := ⟨some "x", none, none, none, none, none⟩

/-- A store with no documents at all. -/
def cnStore : Store := ⟨[], [], 0⟩

/-- A store holding one Settings document and one Project document. -/
def w1Store : Store :=
  ⟨[⟨1, [("name", Val.vStr "N")]⟩], [⟨2, [("title", Val.vStr "X")]⟩], 3⟩

/-- The identifier encoding the native id 5. -/
def w8Pid : String := "000000000000000000000005"

/-- A store holding one Project document with native id 5. -/
def w8Store : Store := ⟨[], [⟨5, [("title", Val.vStr "A")]⟩], 6⟩

/-- An environment with both configuration values set. -/
def e9a : Env := ⟨some "mongodb uri one", some "portfolio"⟩

/-- Another environment with both values set but different contents. -/
def e9b : Env := ⟨some "another uri", some "something else"⟩

theorem getField_setField_self (d : Doc) (k : String) (v : Val) :
    getField (setField d k v) k = some v := by
  induction d with
  | nil => simp [setField, getField]
  | cons kv rest ih =>
    by_cases h : kv.1 = k
    · simp [setField, getField, h]
    · simp [setField, getField, h, ih]

theorem getField_setField_ne (d : Doc) (k k2 : String) (v : Val) (h : k ≠ k2) :
    getField (setField d k v) k2 = getField d k2 := by
  induction d with
  | nil => simp [setField, getField, h]
  | cons kv rest ih =>
    by_cases h1 : kv.1 = k
    · simp [setField, getField, h1, h, Ne.symm h]
    · by_cases h2 : kv.1 = k2 <;> simp [setField, getField, h1, h2, Ne.symm h, ih]

theorem getField_eq_none_of_not_mem (d : Doc) (k : String) (h : k ∉ keys d) :
    getField d k = none := by
  induction d with
  | nil => rfl
  | cons kv rest ih =>
    rw [show keys (kv :: rest) = kv.1 :: keys rest from rfl] at h
    have hk : ¬kv.1 = k := fun he => h (he ▸ List.mem_cons_self _ _)
    have h2 : k ∉ keys rest := fun hm => h (List.mem_cons_of_mem _ hm)
    simp [getField, hk, ih h2]

theorem getField_append_some (a b : Doc) (k : String) (v : Val)
    (h : getField a k = some v) : getField (a ++ b) k = some v := by
  induction a with
  | nil => simp [getField] at h
  | cons kv rest ih =>
    by_cases h1 : kv.1 = k
    · simp [getField, h1] at h ⊢; exact h
    · simp [getField, h1] at h ⊢; exact ih h

theorem getField_append_none (a b : Doc) (k : String)
    (h : getField a k = none) : getField (a ++ b) k = getField b k := by
  induction a with
  | nil => rfl
  | cons kv rest ih =>
    by_cases h1 : kv.1 = k
    · simp [getField, h1] at h
    · simp [getField, h1] at h ⊢; exact ih h

theorem removeField_of_getField_none (d : Doc) (k : String)
    (h : getField d k = none) : removeField d k = d := by
  induction d with
  | nil => rfl
  | cons kv rest ih =>
    by_cases h1 : kv.1 = k
    · simp [getField, h1] at h
    · simp [getField, h1] at h
      simp [removeField, h1, ih h]

theorem setField_of_getField_none (d : Doc) (k : String) (v : Val)
    (h : getField d k = none) : setField d k v = d ++ [(k, v)] := by
  induction d with
  | nil => rfl
  | cons kv rest ih =>
    by_cases h1 : kv.1 = k
    · simp [getField, h1] at h
    · simp [getField, h1] at h
      simp [setField, h1, ih h]

theorem setFields_nil (d : Doc) : setFields d [] = d := rfl

theorem setFields_cons (d : Doc) (k : String) (v : Val) (fs : Doc) :
    setFields d ((k, v) :: fs) = setFields (setField d k v) fs := rfl

theorem getField_setFields_none (fs d : Doc) (k : String)
    (h : getField fs k = none) : getField (setFields d fs) k = getField d k := by
  induction fs generalizing d with
  | nil => rfl
  | cons kv rest ih =>
    by_cases h1 : kv.1 = k
    · simp [getField, h1] at h
    · simp [getField, h1] at h
      rw [show (kv :: rest : Doc) = (kv.1, kv.2) :: rest from rfl, setFields_cons,
        ih _ h, getField_setField_ne _ _ _ _ h1]

theorem getField_setFields_some (fs d : Doc) (k : String) (v : Val)
    (hnd : (keys fs).Nodup) (h : getField fs k = some v) :
    getField (setFields d fs) k = some v := by
  induction fs generalizing d with
  | nil => simp [getField] at h
  | cons kv rest ih =>
    rw [show keys (kv :: rest) = kv.1 :: keys rest from rfl] at hnd
    have hnd2 := List.nodup_cons.mp hnd
    by_cases h1 : kv.1 = k
    · simp [getField, h1] at h
      have hrest : getField rest k = none :=
        getField_eq_none_of_not_mem _ _ (by rw [← h1]; exact hnd2.1)
      rw [show (kv :: rest : Doc) = (kv.1, kv.2) :: rest from rfl, setFields_cons,
        getField_setFields_none _ _ _ hrest, h1, getField_setField_self, h]
    · simp [getField, h1] at h
      rw [show (kv :: rest : Doc) = (kv.1, kv.2) :: rest from rfl, setFields_cons,
        ih _ hnd2.2 h]

theorem keys_optF_append (k : String) (v : Option Val) (rest : Doc) (l : List String)
    (h : List.Sublist (keys rest) l) : List.Sublist (keys (optF k v ++ rest)) (k :: l) := by
  cases v with
  | none => simpa [optF] using h.cons k
  | some x => simpa [optF, keys] using h.cons₂ k

theorem keys_appliedFields_sublist (p : ProjectUpdate) (old : Doc) :
    List.Sublist (keys (appliedFields p old)) updateKeys := by
  have base :
      List.Sublist (keys [("updated_at", (getField old "updated_at").getD Val.vNull)])
        ["updated_at"] := by
    simp [keys]
  unfold appliedFields nonNullFields
  simp only [List.append_assoc]
  exact keys_optF_append _ _ _ _ (keys_optF_append _ _ _ _ (keys_optF_append _ _ _ _
    (keys_optF_append _ _ _ _ (keys_optF_append _ _ _ _ (keys_optF_append _ _ _ _ base)))))

theorem nodup_keys_appliedFields (p : ProjectUpdate) (old : Doc) :
    (keys (appliedFields p old)).Nodup :=
  List.Nodup.sublist (keys_appliedFields_sublist p old) (by decide)

theorem getField_appliedFields_none (p : ProjectUpdate) (old : Doc) (k : String)
    (h : k ∉ updateKeys) : getField (appliedFields p old) k = none :=
  getField_eq_none_of_not_mem _ _
    (fun hm => h ((keys_appliedFields_sublist p old).subset hm))

theorem nnf_title (p : ProjectUpdate) :
    getField (nonNullFields p) "title" = Option.map Val.vStr p.title := by
  rcases p with ⟨t, d, g, i, l, r⟩
  cases t <;> cases d <;> cases g <;> cases i <;> cases l <;> cases r <;> rfl

theorem nnf_description (p : ProjectUpdate) :
    getField (nonNullFields p) "description" = Option.map Val.vStr p.description := by
  rcases p with ⟨t, d, g, i, l, r⟩
  cases t <;> cases d <;> cases g <;> cases i <;> cases l <;> cases r <;> rfl

theorem nnf_tags (p : ProjectUpdate) :
    getField (nonNullFields p) "tags" = Option.map Val.vList p.tags := by
  rcases p with ⟨t, d, g, i, l, r⟩
  cases t <;> cases d <;> cases g <;> cases i <;> cases l <;> cases r <;> rfl

theorem nnf_image_url (p : ProjectUpdate) :
    getField (nonNullFields p) "image_url" = Option.map Val.vStr p.image_url := by
  rcases p with ⟨t, d, g, i, l, r⟩
  cases t <;> cases d <;> cases g <;> cases i <;> cases l <;> cases r <;> rfl

theorem nnf_live_url (p : ProjectUpdate) :
    getField (nonNullFields p) "live_url" = Option.map Val.vStr p.live_url := by
  rcases p with ⟨t, d, g, i, l, r⟩
  cases t <;> cases d <;> cases g <;> cases i <;> cases l <;> cases r <;> rfl

theorem nnf_repo_url (p : ProjectUpdate) :
    getField (nonNullFields p) "repo_url" = Option.map Val.vStr p.repo_url := by
  rcases p with ⟨t, d, g, i, l, r⟩
  cases t <;> cases d <;> cases g <;> cases i <;> cases l <;> cases r <;> rfl

theorem nnf_updated_at (p : ProjectUpdate) :
    getField (nonNullFields p) "updated_at" = none := by
  rcases p with ⟨t, d, g, i, l, r⟩
  cases t <;> cases d <;> cases g <;> cases i <;> cases l <;> cases r <;> rfl

theorem getField_appliedFields_updated_at (p : ProjectUpdate) (old : Doc) :
    getField (appliedFields p old) "updated_at" =
      some ((getField old "updated_at").getD Val.vNull) := by
  unfold appliedFields
  rw [getField_append_none _ _ _ (nnf_updated_at p)]
  simp [getField]

theorem findOne_mem (l : List StoredDoc) (oid : Nat) (d : StoredDoc)
    (h : findOne l oid = some d) : d ∈ l :=
  List.mem_of_find?_eq_some h

theorem findOne_oid (l : List StoredDoc) (oid : Nat) (d : StoredDoc)
    (h : findOne l oid = some d) : d.oid = oid := by
  have := List.find?_some h
  simpa using this

theorem findOne_eq_none_of_not_mem (l : List StoredDoc) (oid : Nat)
    (h : oid ∉ l.map (fun d => d.oid)) : findOne l oid = none := by
  induction l with
  | nil => rfl
  | cons d0 rest ih =>
    have h1 : ¬d0.oid = oid := fun he => h (by simp [List.map_cons, he])
    have h2 : oid ∉ rest.map (fun d => d.oid) := fun hm => h (List.mem_cons_of_mem _ hm)
    rw [findOne, List.find?_cons_of_neg _ (by simpa using h1)]
    exact ih h2

theorem findOne_updateOneList (l : List StoredDoc) (oid : Nat) (fs : Doc) :
    findOne (updateOneList l oid fs) oid =
      (findOne l oid).map (fun d => { d with fields := setFields d.fields fs }) := by
  induction l with
  | nil => rfl
  | cons d0 rest ih =>
    rw [show updateOneList (d0 :: rest) oid fs
          = (if d0.oid == oid then { d0 with fields := setFields d0.fields fs } else d0)
            :: updateOneList rest oid fs from rfl]
    by_cases h : d0.oid = oid
    · rw [if_pos (by simpa using h)]
      rw [findOne, List.find?_cons_of_pos _ (by simpa using h),
          findOne, List.find?_cons_of_pos _ (by simpa using h)]
      rfl
    · rw [if_neg (by simpa using h)]
      rw [findOne, List.find?_cons_of_neg _ (by simpa using h),
          findOne, List.find?_cons_of_neg _ (by simpa using h)]
      exact ih

theorem deleteOne_fst (l : List StoredDoc) (oid : Nat) :
    (deleteOne l oid).1 = (findOne l oid).isSome := by
  induction l with
  | nil => rfl
  | cons d0 rest ih =>
    rw [deleteOne]
    by_cases h : d0.oid = oid
    · rw [if_pos (by simpa using h), findOne, List.find?_cons_of_pos _ (by simpa using h)]
      rfl
    · rw [if_neg (by simpa using h), findOne, List.find?_cons_of_neg _ (by simpa using h)]
      exact ih

theorem deleteOne_of_findOne_none (l : List StoredDoc) (oid : Nat)
    (h : findOne l oid = none) : deleteOne l oid = (false, l) := by
  induction l with
  | nil => rfl
  | cons d0 rest ih =>
    by_cases h1 : d0.oid = oid
    · rw [findOne, List.find?_cons_of_pos _ (by simpa using h1)] at h
      exact absurd h (by simp)
    · rw [findOne, List.find?_cons_of_neg _ (by simpa using h1)] at h
      rw [deleteOne, if_neg (by simpa using h1)]
      rw [show findOne rest oid = none from h] at ih
      simp [ih rfl]

theorem findOne_deleteOne (l : List StoredDoc) (oid : Nat) (h : oidsUnique l) :
    findOne (deleteOne l oid).2 oid = none := by
  induction l with
  | nil => rfl
  | cons d0 rest ih =>
    unfold oidsUnique at h
    rw [List.map_cons, List.nodup_cons] at h
    by_cases h1 : d0.oid = oid
    · rw [deleteOne, if_pos (by simpa using h1)]
      exact findOne_eq_none_of_not_mem _ _ (h1 ▸ h.1)
    · rw [deleteOne, if_neg (by simpa using h1)]
      show findOne (d0 :: (deleteOne rest oid).2) oid = none
      rw [findOne, List.find?_cons_of_neg _ (by simpa using h1)]
      exact ih h.2

theorem to_serializable_withId (d : StoredDoc)
    (h1 : getField d.fields "_id" = none) (h2 : getField d.fields "id" = none) :
    to_serializable (withId d) = d.fields ++ [("id", Val.vStr (oidStr d.oid))] := by
  show setField (removeField d.fields "_id") "id" (Val.vStr (oidStr d.oid))
      = d.fields ++ [("id", Val.vStr (oidStr d.oid))]
  rw [removeField_of_getField_none _ _ h1]
  exact setField_of_getField_none _ _ _ h2

theorem serializedAs_to_serializable (d : StoredDoc)
    (h1 : getField d.fields "_id" = none) :
    serializedAs d.oid (to_serializable (withId d)) := by
  show serializedAs d.oid
    (setField (removeField d.fields "_id") "id" (Val.vStr (oidStr d.oid)))
  rw [removeField_of_getField_none _ _ h1]
  refine ⟨?_, getField_setField_self _ _ _⟩
  rw [getField_setField_ne _ _ _ _ (by decide), h1]

theorem upsert_settings_eq (p : SettingsIn) (st : Store) :
    upsert_settings p st
      = (Resp.doc (to_serializable (withId ⟨st.nextId, settingsToDoc p⟩)),
         { st with settings := [⟨st.nextId, settingsToDoc p⟩], nextId := st.nextId + 1 }) := by
  have hfind : findOne [(⟨st.nextId, settingsToDoc p⟩ : StoredDoc)] st.nextId
      = some ⟨st.nextId, settingsToDoc p⟩ := by
    rw [findOne, List.find?_cons_of_pos _ (by simp)]
  simp only [upsert_settings, insertSettings, List.nil_append, hfind]

theorem findOne_append_self (l : List StoredDoc) (oid : Nat) (fs : Doc) :
    ∃ d, findOne (l ++ [⟨oid, fs⟩]) oid = some d ∧ d ∈ l ++ [⟨oid, fs⟩] := by
  cases h : findOne (l ++ [⟨oid, fs⟩]) oid with
  | some d => exact ⟨d, rfl, findOne_mem _ _ _ h⟩
  | none =>
    exfalso
    rw [findOne, List.find?_eq_none] at h
    have hc := h ⟨oid, fs⟩ (List.mem_append_right _ (List.mem_cons_self _ _))
    simp at hc

theorem update_project_post (pid : String) (p : ProjectUpdate) (st : Store) (d : StoredDoc)
    (hv : isValidObjectId pid = true) (hne : nonNullFields p ≠ [])
    (hf : findOne st.project (decodeOid pid) = some d) :
    update_project pid p st
      = (Resp.doc (to_serializable
           (withId ⟨d.oid, setFields d.fields (appliedFields p d.fields)⟩)),
         { st with project := updateOneList st.project (decodeOid pid) (appliedFields p d.fields) }) := by
  have hpost : findOne (updateOneList st.project (decodeOid pid) (appliedFields p d.fields))
      (decodeOid pid) = some ⟨d.oid, setFields d.fields (appliedFields p d.fields)⟩ := by
    rw [findOne_updateOneList, hf]; rfl
  unfold update_project
  rw [if_pos hv, if_neg hne, hf]
  simp only [hpost]

theorem merge_lookup (p : ProjectUpdate) (old : Doc) (key : String)
    (hk : key ≠ "updated_at") :
    getField (setFields old (appliedFields p old)) key
      = mergeVal (getField (nonNullFields p) key) (getField old key) := by
  cases h : getField (nonNullFields p) key with
  | some v =>
    rw [mergeVal]
    exact getField_setFields_some _ _ _ _ (nodup_keys_appliedFields p old)
      (getField_append_some _ _ _ _ h)
  | none =>
    have happ : getField (appliedFields p old) key = none := by
      rw [appliedFields, getField_append_none _ _ _ h]
      simp [getField, Ne.symm hk]
    rw [getField_setFields_none _ _ _ happ]
    rfl

/-- C1: every document returned to a client by any endpoint — the single
documents of the settings and admin-write endpoints and every element of
the list responses — has the store-native identifier field absent and a
string id field holding exactly the encoded identifier of the document
it serializes; the native field never appears in a response. Each clause
names the stored source document whose native identifier the id field
encodes. The hypotheses state the store well-formedness every handler
maintains: data fields never contain the native key. -/
theorem claim1_no_native_id_in_responses (st : Store)
    (h1 : noNativeKey st.settings) (h2 : noNativeKey st.project) :
    (∀ d, get_public_settings st = Resp.doc d → d ≠ [] →
      ∃ sd ∈ st.settings, serializedAs sd.oid d) ∧
    (∀ ds d, list_public_projects st = Resp.docs ds → d ∈ ds →
      ∃ sd ∈ st.project, serializedAs sd.oid d) ∧
    (∀ ds d, list_projects_admin st = Resp.docs ds → d ∈ ds →
      ∃ sd ∈ st.project, serializedAs sd.oid d) ∧
    (∀ p d st2, upsert_settings p st = (Resp.doc d, st2) → serializedAs st.nextId d) ∧
    (∀ p d st2, create_project p st = (Resp.doc d, st2) →
      ∃ sd ∈ st.project ++ [⟨st.nextId, projectToDoc p⟩], serializedAs sd.oid d) ∧
    (∀ pid p d st2, update_project pid p st = (Resp.doc d, st2) →
      ∃ sd, findOne st.project (decodeOid pid) = some sd ∧ serializedAs sd.oid d) := by
  refine ⟨?_, ?_, ?_, ?_, ?_, ?_⟩
  · intro d hd hne
    cases hs : st.settings with
    | nil =>
      rw [get_public_settings, hs] at hd
      simp at hd
      exact absurd hd hne
    | cons d0 rest =>
      rw [get_public_settings, hs] at hd
      simp at hd
      refine ⟨d0, List.mem_cons_self _ _, ?_⟩
      rw [← hd]
      exact serializedAs_to_serializable d0 (h1 d0 (by rw [hs]; exact List.mem_cons_self _ _))
  · intro ds d hds hmem
    rw [list_public_projects] at hds
    injection hds with h3
    rw [← h3] at hmem
    obtain ⟨d0, hd0, hEq⟩ := List.mem_map.mp hmem
    refine ⟨d0, hd0, ?_⟩
    rw [← hEq]
    exact serializedAs_to_serializable d0 (h2 d0 hd0)
  · intro ds d hds hmem
    rw [list_projects_admin] at hds
    injection hds with h3
    rw [← h3] at hmem
    obtain ⟨d0, hd0, hEq⟩ := List.mem_map.mp hmem
    refine ⟨d0, hd0, ?_⟩
    rw [← hEq]
    exact serializedAs_to_serializable d0 (h2 d0 hd0)
  · intro p d st2 h
    rw [upsert_settings_eq] at h
    have hd := congrArg Prod.fst h
    injection hd with hd2
    rw [← hd2]
    exact serializedAs_to_serializable ⟨st.nextId, settingsToDoc p⟩ rfl
  · intro p d st2 h
    obtain ⟨dd, hfind, hmem⟩ := findOne_append_self st.project st.nextId (projectToDoc p)
    simp only [create_project, insertProject] at h
    rw [hfind] at h
    have hd := congrArg Prod.fst h
    injection hd with hd2
    refine ⟨dd, hmem, ?_⟩
    rw [← hd2]
    refine serializedAs_to_serializable dd ?_
    rcases List.mem_append.mp hmem with hm | hm
    · exact h2 dd hm
    · rw [List.mem_singleton] at hm
      rw [hm]
      rfl
  · intro pid p d st2 h
    by_cases hv : isValidObjectId pid = true
    · by_cases hne0 : nonNullFields p = []
      · rw [update_project, if_pos hv, if_pos hne0] at h
        exact absurd (congrArg Prod.fst h) (by simp)
      · cases hf : findOne st.project (decodeOid pid) with
        | none =>
          rw [update_project, if_pos hv, if_neg hne0, hf] at h
          exact absurd (congrArg Prod.fst h) (by simp)
        | some d0 =>
          rw [update_project_post pid p st d0 hv hne0 hf] at h
          have hd := congrArg Prod.fst h
          injection hd with hd2
          refine ⟨d0, rfl, ?_⟩
          rw [← hd2]
          refine serializedAs_to_serializable
            ⟨d0.oid, setFields d0.fields (appliedFields p d0.fields)⟩ ?_
          show getField (setFields d0.fields (appliedFields p d0.fields)) "_id" = none
          rw [getField_setFields_none _ _ _ (getField_appliedFields_none p d0.fields _ (by decide))]
          exact h2 d0 (findOne_mem _ _ _ hf)
    · rw [update_project, if_neg hv] at h
      exact absurd (congrArg Prod.fst h) (by simp)

/-- C1 witness: the theorem applied to a concrete well-formed store; the
project listing element carries no native key and its id field holds
exactly the encoding of its source document's native identifier 2. -/
theorem claim1_witness :
    serializedAs 2 (to_serializable (withId ⟨2, [("title", Val.vStr "X")]⟩)) := by
  have h := claim1_no_native_id_in_responses w1Store
    (by unfold noNativeKey; decide) (by unfold noNativeKey; decide)
  have hmem : to_serializable (withId ⟨2, [("title", Val.vStr "X")]⟩)
      ∈ w1Store.project.map (fun d => to_serializable (withId d)) := by
    rw [show w1Store.project = [(⟨2, [("title", Val.vStr "X")]⟩ : StoredDoc)] from rfl]
    rw [List.map_cons]
    exact List.mem_cons_self _ _
  obtain ⟨sd, hsd, hser⟩ :=
    h.2.1 (w1Store.project.map (fun d => to_serializable (withId d))) _ rfl hmem
  rw [show w1Store.project = [(⟨2, [("title", Val.vStr "X")]⟩ : StoredDoc)] from rfl] at hsd
  rw [List.mem_singleton] at hsd
  rw [hsd] at hser
  exact hser

/-- C2 counterexample: with a syntactically valid identifier whose
document is absent at the read, update_project does not produce an
explicit NotFound response — it produces the generic 500 carrying the
attribute-access fault on the absent read result, refuting the claim at
this concrete input. -/
theorem claim2_counterexample :
    update_project cnPid cnUpd cnStore = (Resp.err 500 absentDocDetail, cnStore) ∧
    ¬isNotFoundResp (update_project cnPid cnUpd cnStore).1 := by
  have h1 : update_project cnPid cnUpd cnStore = (Resp.err 500 absentDocDetail, cnStore) := by
    decide
  refine ⟨h1, ?_⟩
  rintro ⟨m, hm⟩
  rw [h1] at hm
  simp [Resp.err.injEq] at hm

/-- C2 amended: when the target document is absent at the read, the
handler does fail rather than write anything — the store is left
untouched — but the failure is the generic 500 internal fault from the
attribute access on the absent value, not an explicit NotFound. -/
theorem claim2_absent_read_internal_fault (st : Store) (pid : String) (p : ProjectUpdate)
    (hv : isValidObjectId pid = true) (hne : nonNullFields p ≠ [])
    (habs : findOne st.project (decodeOid pid) = none) :
    update_project pid p st = (Resp.err 500 absentDocDetail, st) := by
  rw [update_project, if_pos hv, if_neg hne, habs]

/-- C2 witness: the amended theorem applied at a concrete store with the
document absent. -/
theorem claim2_witness :
    isValidObjectId cnPid = true ∧ nonNullFields cnUpd ≠ [] ∧
    findOne cnStore.project (decodeOid cnPid) = none ∧
    update_project cnPid cnUpd cnStore = (Resp.err 500 absentDocDetail, cnStore) :=
  ⟨by decide, by decide, by decide,
    claim2_absent_read_internal_fault cnStore cnPid cnUpd (by decide) (by decide) (by decide)⟩

/-- C3: the field set the partial update applies is exactly the non-null
request fields — each of the six request fields is overwritten in the
stored document precisely when its incoming value is non-null (an empty
list or empty string counts as present and overwrites), is kept at its
stored value when the incoming value is null or absent, and no key other
than the six request fields and the preserved updated_at is touched. -/
theorem claim3_merge_exactly_nonnull (pid : String) (p : ProjectUpdate) (st : Store)
    (d : StoredDoc)
    (hv : isValidObjectId pid = true) (hne : nonNullFields p ≠ [])
    (hf : findOne st.project (decodeOid pid) = some d) :
    ∃ d2, findOne ((update_project pid p st).2).project (decodeOid pid) = some d2 ∧
      getField d2.fields "title"
        = mergeVal (Option.map Val.vStr p.title) (getField d.fields "title") ∧
      getField d2.fields "description"
        = mergeVal (Option.map Val.vStr p.description) (getField d.fields "description") ∧
      getField d2.fields "tags"
        = mergeVal (Option.map Val.vList p.tags) (getField d.fields "tags") ∧
      getField d2.fields "image_url"
        = mergeVal (Option.map Val.vStr p.image_url) (getField d.fields "image_url") ∧
      getField d2.fields "live_url"
        = mergeVal (Option.map Val.vStr p.live_url) (getField d.fields "live_url") ∧
      getField d2.fields "repo_url"
        = mergeVal (Option.map Val.vStr p.repo_url) (getField d.fields "repo_url") ∧
      ∀ k, k ∉ updateKeys → getField d2.fields k = getField d.fields k := by
  refine ⟨⟨d.oid, setFields d.fields (appliedFields p d.fields)⟩, ?_, ?_, ?_, ?_, ?_, ?_, ?_, ?_⟩
  · rw [update_project_post pid p st d hv hne hf]
    show findOne (updateOneList st.project (decodeOid pid) (appliedFields p d.fields))
        (decodeOid pid) = _
    rw [findOne_updateOneList, hf]
    rfl
  · show getField (setFields d.fields (appliedFields p d.fields)) "title" = _
    rw [merge_lookup p d.fields _ (by decide), nnf_title]
  · show getField (setFields d.fields (appliedFields p d.fields)) "description" = _
    rw [merge_lookup p d.fields _ (by decide), nnf_description]
  · show getField (setFields d.fields (appliedFields p d.fields)) "tags" = _
    rw [merge_lookup p d.fields _ (by decide), nnf_tags]
  · show getField (setFields d.fields (appliedFields p d.fields)) "image_url" = _
    rw [merge_lookup p d.fields _ (by decide), nnf_image_url]
  · show getField (setFields d.fields (appliedFields p d.fields)) "live_url" = _
    rw [merge_lookup p d.fields _ (by decide), nnf_live_url]
  · show getField (setFields d.fields (appliedFields p d.fields)) "repo_url" = _
    rw [merge_lookup p d.fields _ (by decide), nnf_repo_url]
  · intro k hk
    show getField (setFields d.fields (appliedFields p d.fields)) k = _
    rw [getField_setFields_none _ _ _ (getField_appliedFields_none p d.fields _ hk)]

/-- C3 witness: the merge theorem applied at a concrete store; the
supplied title overwrites the stored one. -/
theorem claim3_witness :
    isValidObjectId w8Pid = true ∧
    findOne w8Store.project (decodeOid w8Pid) = some ⟨5, [("title", Val.vStr "A")]⟩ ∧
    ∃ d2, findOne ((update_project w8Pid cnUpd w8Store).2).project (decodeOid w8Pid) = some d2 ∧
      getField d2.fields "title" = some (Val.vStr "x") := by
  obtain ⟨d2, hfind, ht, _⟩ := claim3_merge_exactly_nonnull w8Pid cnUpd w8Store
    ⟨5, [("title", Val.vStr "A")]⟩ (by decide) (by decide) (by decide)
  refine ⟨by decide, by decide, d2, hfind, ?_⟩
  rw [ht]
  rfl

/-- C4: an admin settings upsert followed by the public settings read
returns exactly the payload fields plus a string id field, and the store
retains exactly the one inserted Settings document. -/
theorem claim4_upsert_then_get_roundtrip (p : SettingsIn) (st : Store) :
    (upsert_settings p st).1
      = Resp.doc (settingsToDoc p ++ [("id", Val.vStr (oidStr st.nextId))]) ∧
    get_public_settings (upsert_settings p st).2
      = Resp.doc (settingsToDoc p ++ [("id", Val.vStr (oidStr st.nextId))]) ∧
    (upsert_settings p st).2.settings = [⟨st.nextId, settingsToDoc p⟩] := by
  have hser : to_serializable (withId (⟨st.nextId, settingsToDoc p⟩ : StoredDoc))
      = settingsToDoc p ++ [("id", Val.vStr (oidStr st.nextId))] :=
    to_serializable_withId _ rfl rfl
  rw [upsert_settings_eq]
  refine ⟨?_, ?_, rfl⟩
  · show Resp.doc (to_serializable (withId ⟨st.nextId, settingsToDoc p⟩)) = _
    rw [hser]
  · show Resp.doc (to_serializable (withId ⟨st.nextId, settingsToDoc p⟩)) = _
    rw [hser]

/-- C5: a syntactically invalid identifier makes both the partial-update
and the delete endpoint answer with the client error 400 and leave the
store completely unchanged. -/
theorem claim5_invalid_id_client_error_no_mutation (s : String) (p : ProjectUpdate)
    (st : Store) (h : isValidObjectId s = false) :
    update_project s p st = (Resp.err 400 "Invalid project id", st) ∧
    delete_project s st = (Resp.err 400 "Invalid project id", st) := by
  constructor
  · rw [update_project, if_neg (by simp [h])]
  · rw [delete_project, if_neg (by simp [h])]

/-- C5 witness: the theorem applied to a concrete malformed identifier. -/
theorem claim5_witness :
    isValidObjectId "nope" = false ∧
    update_project "nope" cnUpd w8Store = (Resp.err 400 "Invalid project id", w8Store) ∧
    delete_project "nope" w8Store = (Resp.err 400 "Invalid project id", w8Store) :=
  ⟨by decide, claim5_invalid_id_client_error_no_mutation "nope" cnUpd w8Store (by decide)⟩

/-- C6: a request body failing schema validation — a required field
missing or of the wrong shape — makes the admin settings and projects
create endpoints answer with the generic status 500, not a dedicated
400. -/
theorem claim6_validation_failure_is_500 (body : Body) (st : Store) :
    (validateSettings body = none →
      post_admin_settings body st = (Resp.err 500 "validation error", st)) ∧
    (validateProject body = none →
      post_admin_projects body st = (Resp.err 500 "validation error", st)) := by
  constructor
  · intro h
    rw [post_admin_settings, h]
  · intro h
    rw [post_admin_projects, h]

/-- C6 witness: the empty body misses every required field of the
Settings schema, and a body with only a title misses the required
description of the Project schema; both endpoints answer 500. -/
theorem claim6_witness :
    validateSettings [] = none ∧
    validateProject [("title", JVal.jStr "X")] = none ∧
    post_admin_settings [] cnStore = (Resp.err 500 "validation error", cnStore) ∧
    post_admin_projects [("title", JVal.jStr "X")] cnStore
      = (Resp.err 500 "validation error", cnStore) :=
  ⟨by decide, by decide,
    (claim6_validation_failure_is_500 [] cnStore).1 (by decide),
    (claim6_validation_failure_is_500 [("title", JVal.jStr "X")] cnStore).2 (by decide)⟩

/-- C7: a partial update whose body supplies no non-null field returns
the updated-false flag and performs no store operation at all — the whole
store, the target document included, is returned unchanged. -/
theorem claim7_empty_update_touches_nothing (pid : String) (p : ProjectUpdate) (st : Store)
    (hv : isValidObjectId pid = true)
    (h1 : p.title = none) (h2 : p.description = none) (h3 : p.tags = none)
    (h4 : p.image_url = none) (h5 : p.live_url = none) (h6 : p.repo_url = none) :
    update_project pid p st = (Resp.updatedFlag false, st) := by
  have hempty : nonNullFields p = [] := by
    unfold nonNullFields
    rw [h1, h2, h3, h4, h5, h6]
    rfl
  rw [update_project, if_pos hv, if_pos hempty]

/-- C7 witness: the theorem applied to the all-null body at a concrete
valid identifier and store. -/
theorem claim7_witness :
    isValidObjectId w8Pid = true ∧
    update_project w8Pid ⟨none, none, none, none, none, none⟩ w8Store
      = (Resp.updatedFlag false, w8Store) :=
  ⟨by decide, claim7_empty_update_touches_nothing w8Pid ⟨none, none, none, none, none, none⟩
    w8Store (by decide) rfl rfl rfl rfl rfl rfl⟩

/-- C8: with a syntactically valid identifier, the delete endpoint
reports deleted-false when no document carries that identifier, and
deleted-true when one does, after which a fetch of that identifier finds
nothing (native identifiers being unique in the collection). -/
theorem claim8_delete_reports_and_removes (pid : String) (st : Store)
    (hv : isValidObjectId pid = true) (hu : oidsUnique st.project) :
    (findOne st.project (decodeOid pid) = none →
      delete_project pid st = (Resp.deletedFlag false, st)) ∧
    (∀ d, findOne st.project (decodeOid pid) = some d →
      (delete_project pid st).1 = Resp.deletedFlag true ∧
      findOne ((delete_project pid st).2).project (decodeOid pid) = none) := by
  constructor
  · intro h
    rw [delete_project, if_pos hv, deleteOne_of_findOne_none _ _ h]
  · intro d h
    rw [delete_project, if_pos hv]
    constructor
    · show Resp.deletedFlag (deleteOne st.project (decodeOid pid)).1 = Resp.deletedFlag true
      rw [deleteOne_fst, h]
      rfl
    · show findOne (deleteOne st.project (decodeOid pid)).2 (decodeOid pid) = none
      exact findOne_deleteOne _ _ hu

/-- C8 witness: deleting the one stored project reports true and a
subsequent fetch finds nothing. -/
theorem claim8_witness :
    isValidObjectId w8Pid = true ∧ oidsUnique w8Store.project ∧
    (delete_project w8Pid w8Store).1 = Resp.deletedFlag true ∧
    findOne ((delete_project w8Pid w8Store).2).project (decodeOid w8Pid) = none := by
  have h := (claim8_delete_reports_and_removes w8Pid w8Store (by decide)
    (by unfold oidsUnique; decide)).2 ⟨5, [("title", Val.vStr "A")]⟩ (by decide)
  exact ⟨by decide, by unfold oidsUnique; decide, h.1, h.2⟩

/-- C9: the diagnostic endpoint is a total function into a 200 response
body (every exception path of the source is caught), and it is
noninterferent in the configuration values: two environments agreeing on
which of the two values are set produce identical responses, and the two
indicator fields only ever hold the fixed presence marks, never the
configured values. -/
theorem claim9_diagnostic_noninterference (db : Option DbHandle) (e1 e2 : Env)
    (hu : e1.database_url.isSome = e2.database_url.isSome)
    (hn : e1.database_name.isSome = e2.database_name.isSome) :
    test_database db e1 = test_database db e2 ∧
    ((test_database db e1).database_url = some "✅ Set" ∨
      (test_database db e1).database_url = some "❌ Not Set") ∧
    ((test_database db e1).database_name = some "✅ Set" ∨
      (test_database db e1).database_name = some "❌ Not Set") := by
  refine ⟨?_, ?_, ?_⟩
  · simp only [test_database]
    rw [hu, hn]
  · have hproj : (test_database db e1).database_url
        = some (if e1.database_url.isSome then "✅ Set" else "❌ Not Set") := rfl
    rw [hproj]
    by_cases h : e1.database_url.isSome
    · left
      rw [if_pos h]
    · right
      rw [if_neg h]
  · have hproj : (test_database db e1).database_name
        = some (if e1.database_name.isSome then "✅ Set" else "❌ Not Set") := rfl
    rw [hproj]
    by_cases h : e1.database_name.isSome
    · left
      rw [if_pos h]
    · right
      rw [if_neg h]

/-- C9 witness: two environments with both values set but entirely
different contents yield the same diagnostic response. -/
theorem claim9_witness : test_database none e9a = test_database none e9b :=
  (claim9_diagnostic_noninterference none e9a e9b rfl rfl).1

/-- C10: whenever the partial update reaches its write (valid identifier,
at least one non-null field, target found), the field set it writes
always includes an updated_at key holding the target document's current
updated_at value — null when the document has no such field — even though
updated_at is not a request field; consequently the refreshed document
carries that same value. -/
theorem claim10_updated_at_always_written (pid : String) (p : ProjectUpdate) (st : Store)
    (d : StoredDoc)
    (hv : isValidObjectId pid = true) (hne : nonNullFields p ≠ [])
    (hf : findOne st.project (decodeOid pid) = some d) :
    getField (appliedFields p d.fields) "updated_at"
      = some ((getField d.fields "updated_at").getD Val.vNull) ∧
    ∃ d2, findOne ((update_project pid p st).2).project (decodeOid pid) = some d2 ∧
      getField d2.fields "updated_at"
        = some ((getField d.fields "updated_at").getD Val.vNull) := by
  refine ⟨getField_appliedFields_updated_at p d.fields,
    ⟨d.oid, setFields d.fields (appliedFields p d.fields)⟩, ?_, ?_⟩
  · rw [update_project_post pid p st d hv hne hf]
    show findOne (updateOneList st.project (decodeOid pid) (appliedFields p d.fields))
        (decodeOid pid) = _
    rw [findOne_updateOneList, hf]
    rfl
  · show getField (setFields d.fields (appliedFields p d.fields)) "updated_at" = _
    exact getField_setFields_some _ _ _ _ (nodup_keys_appliedFields p d.fields)
      (getField_appliedFields_updated_at p d.fields)

/-- C10 witness: the stored document has no updated_at, so the written
field set and the refreshed document carry updated_at as null. -/
theorem claim10_witness :
    getField (appliedFields cnUpd [("title", Val.vStr "A")]) "updated_at" = some Val.vNull ∧
    ∃ d2, findOne ((update_project w8Pid cnUpd w8Store).2).project (decodeOid w8Pid)
        = some d2 ∧
      getField d2.fields "updated_at" = some Val.vNull := by
  obtain ⟨h1, d2, h2, h3⟩ := claim10_updated_at_always_written w8Pid cnUpd w8Store
    ⟨5, [("title", Val.vStr "A")]⟩ (by decide) (by decide) (by decide)
  exact ⟨h1, d2, h2, h3⟩

end Portfolio
